import Mathlib

/-!
# Client assembly of the GitHub provider (`github/config.go`)

A shallow embedding of `Config.Client` and `insecureHttpClient`, together with
models of the repository components that `Client` wires together (the ETag and
rate-limit transports, the batched lookups).

Library values that `Client` only passes along are kept symbolic: a round
tripper is a term recording which constructor built it and from what, the URL
parser and the library default base URL are parameters.
-/

namespace Github

/-! ## Data model of `config.go` -/

/-- Go struct `Config`. -/
structure Config where
  Token : String
  Organization : String
  BaseURL : String
  Insecure : Bool
deriving DecidableEq, Repr

/-- Go struct `tls.Config`, restricted to the field `config.go` sets. -/
structure TLSConfig where
  InsecureSkipVerify : Bool
deriving DecidableEq, Repr

/-- Go struct `http.Transport`, restricted to the field `config.go` sets. -/
structure HTTPTransport where
  TLSClientConfig : Option TLSConfig
deriving DecidableEq, Repr

/-- Go struct `oauth2.Token`, restricted to the field `config.go` sets. -/
structure Token where
  AccessToken : String
deriving DecidableEq, Repr

/-- Result of `oauth2.StaticTokenSource(t)`: a source that always yields `t`. -/
structure TokenSource where
  token : Token
deriving DecidableEq, Repr

/-- Call `oauth2.StaticTokenSource`. -/
def StaticTokenSource (t : Token) : TokenSource := ⟨t⟩

/-- A `context.Context` as far as `Client` uses it: the value stored under the
key `oauth2.HTTPClient`, `none` when the key is absent.  The stored client is
identified by its `http.Transport`. -/
structure Context where
  httpClient : Option HTTPTransport
deriving DecidableEq, Repr

/-- Call `context.Background()`: no values. -/
def Context.Background : Context := ⟨none⟩

/-- Call `context.WithValue(ctx, oauth2.HTTPClient, hc)`. -/
def Context.WithHTTPClient (_ctx : Context) (hc : HTTPTransport) : Context := ⟨some hc⟩

/-- An `http.RoundTripper`, recorded as the constructor call that produced it.
`oauth2 ctx ts` is the transport of `oauth2.NewClient(ctx, ts)`; `etag`,
`rateLimit` and `logging` are the three wrappers `Client` installs. -/
inductive RoundTripper where
  | oauth2 (ctx : Context) (ts : TokenSource)
  | etag (rt : RoundTripper)
  | rateLimit (rt : RoundTripper)
  | logging (name : String) (rt : RoundTripper)
deriving DecidableEq, Repr

/-- Go struct `http.Client`, restricted to its `Transport`. -/
structure HTTPClient where
  Transport : RoundTripper
deriving DecidableEq, Repr

/-- Call `oauth2.NewClient(ctx, ts)`. -/
def oauth2NewClient (ctx : Context) (ts : TokenSource) : HTTPClient := ⟨.oauth2 ctx ts⟩

/-- Modelled from the spec: `NewEtagTransport` is not among the sources; the
conditional-cache transport "wraps an underlying request-executor". -/
def NewEtagTransport (rt : RoundTripper) : RoundTripper := .etag rt

/-- Modelled from the spec: `NewRateLimitTransport` is not among the sources;
the rate-limit transport "wraps an underlying request-executor". -/
def NewRateLimitTransport (rt : RoundTripper) : RoundTripper := .rateLimit rt

/-- Call `logging.NewTransport(name, rt)`. -/
def loggingNewTransport (name : String) (rt : RoundTripper) : RoundTripper := .logging name rt

/-- Number of ETag wrappers in a transport chain. -/
def RoundTripper.etagCount : RoundTripper → Nat
  | .oauth2 _ _ => 0
  | .etag rt => rt.etagCount + 1
  | .rateLimit rt => rt.etagCount
  | .logging _ rt => rt.etagCount

/-- Number of rate-limit wrappers in a transport chain. -/
def RoundTripper.rateLimitCount : RoundTripper → Nat
  | .oauth2 _ _ => 0
  | .etag rt => rt.rateLimitCount
  | .rateLimit rt => rt.rateLimitCount + 1
  | .logging _ rt => rt.rateLimitCount

/-- The wrappers of a chain, outermost first, down to the oauth2 transport. -/
def RoundTripper.layers : RoundTripper → List String
  | .oauth2 _ _ => ["oauth2"]
  | .etag rt => "etag" :: rt.layers
  | .rateLimit rt => "rateLimit" :: rt.layers
  | .logging _ rt => "logging" :: rt.layers

/-- Go struct `github.Client`, restricted to the HTTP client it was built on
and its `BaseURL`.  `U` is the type of parsed URLs. -/
structure GithubClient (U : Type) where
  client : HTTPClient
  BaseURL : U
deriving DecidableEq, Repr

/-- Call `github.NewClient(tc)`: the base URL starts at the library default. -/
def githubNewClient {U : Type} (defaultBaseURL : U) (tc : HTTPClient) : GithubClient U :=
  ⟨tc, defaultBaseURL⟩

/-- The two services of `github.Client` that `Client` hands to the batchers. -/
inductive Service where
  | Issues
  | Repositories
deriving DecidableEq, Repr

/-- Which entity a batched lookup reads. -/
inductive EntityKind where
  | label
  | collaborator
deriving DecidableEq, Repr

/-- A batched lookup function, recorded as what it was built from: the entity
kind, the coalescing window (a `time.Duration`, in nanoseconds) and the service
whose bulk-list operation it calls. -/
structure BatchedLookup where
  kind : EntityKind
  timing : Nat
  service : Service
deriving DecidableEq, Repr

/-- Modelled from the spec: `batchReadLabel` is not among the sources; a
coalescer instance for "label" entities "bound to a specific underlying
bulk-list operation and a fixed coalescing window duration". -/
def batchReadLabel (timing : Nat) (svc : Service) : BatchedLookup := ⟨.label, timing, svc⟩

/-- Modelled from the spec: `batchReadCollaborator` is not among the sources; a
coalescer instance for "collaborator" entities "bound to a specific underlying
bulk-list operation and a fixed coalescing window duration". -/
def batchReadCollaborator (timing : Nat) (svc : Service) : BatchedLookup :=
  ⟨.collaborator, timing, svc⟩

/-- Go struct `Organization` (without `StopContext`, which `Client` leaves at
its zero value).  Pointer and function fields are `none` when nil. -/
structure Organization (U : Type) where
  name : String
  client : Option (GithubClient U)
  readLabel : Option BatchedLookup
  readCollaborator : Option BatchedLookup
deriving DecidableEq, Repr

/-- Constant `time.Second`, in nanoseconds. -/
def timeSecond : Nat := 1000000000

/-- Constant `batchTiming` of `Client`. -/
def batchTiming : Nat := 2 * timeSecond

/-! ## Operations of `config.go` -/

/-- Function `insecureHttpClient`, identified by the transport it carries. -/
def insecureHttpClient : HTTPTransport :=
  { TLSClientConfig := some { InsecureSkipVerify := true } }

/-- The context `Client` hands to `oauth2.NewClient` (lines 40-45). -/
def Config.oauthContext (c : Config) : Context :=
  let ctx := Context.Background
  if c.Insecure then
    let insecureClient := insecureHttpClient
    ctx.WithHTTPClient insecureClient
  else ctx

/-- The HTTP client `tc` that `Client` assembles (lines 36-53). -/
def Config.transportClient (c : Config) : HTTPClient :=
  let ts := StaticTokenSource { AccessToken := c.Token }
  let ctx := c.oauthContext
  let tc := oauth2NewClient ctx ts
  let tc : HTTPClient := { tc with Transport := NewEtagTransport tc.Transport }
  let tc : HTTPClient := { tc with Transport := NewRateLimitTransport tc.Transport }
  let tc : HTTPClient := { tc with Transport := loggingNewTransport "Github" tc.Transport }
  tc

/-- Method `Config.Client`.  `parse` is `url.Parse`, `defaultBaseURL` the base
URL `github.NewClient` installs.  `.error err` is the Go return `(nil, err)`,
`.ok org` the Go return `(&org, nil)`. -/
def Config.Client {U E : Type} (parse : String → Except E U) (defaultBaseURL : U)
    (c : Config) : Except E (Github.Organization U) :=
  let org : Github.Organization U :=
    { name := "", client := none, readLabel := none, readCollaborator := none }
  let org := { org with name := c.Organization }
  let tc := c.transportClient
  let client := githubNewClient defaultBaseURL tc
  let assigned : Except E (GithubClient U) :=
    if c.BaseURL ≠ "" then
      match parse c.BaseURL with
      | .error err => .error err
      | .ok u => .ok { client with BaseURL := u }
    else .ok client
  match assigned with
  | .error err => .error err
  | .ok client =>
    let org := { org with client := some client }
    let org := { org with readLabel := some (batchReadLabel batchTiming .Issues) }
    let org := { org with
      readCollaborator := some (batchReadCollaborator batchTiming .Repositories) }
    .ok org

/-! ## BatchCoalescer (spec section 4.3) -/

/-- Spec `LookupResult`: `{ item, found }`. -/
structure LookupResult (Item : Type) where
  item : Option Item
  found : Bool
deriving DecidableEq, Repr

/-- What a waiter receives in its result slot: a `LookupResult`, or the
`LookupError` of the failed bulk call. -/
abbrev Delivery (Item E : Type) := Except E (LookupResult Item)

/-- Spec `BatchWindow`: `{ key, openedAt, waiters }`, a waiter being an item key
with the number of its result slot. -/
structure BatchWindow (G K : Type) where
  key : G
  openedAt : Nat
  waiters : List (K × Nat)
deriving DecidableEq, Repr

/-- Modelled from the spec: the batching code behind `batchReadLabel` and
`batchReadCollaborator` is not among the sources.  State of one coalescer: the
window duration, the shared registry of open windows by group key, the next
fresh result slot, the log of underlying bulk-list calls, and the results
delivered so far, by slot. -/
structure Coalescer (G K Item E : Type) where
  window : Nat
  registry : G → Option (BatchWindow G K)
  nextSlot : Nat
  calls : List G
  slots : List (Nat × Delivery Item E)

/-- A coalescer with no open window and nothing delivered. -/
def Coalescer.empty (G K Item E : Type) (window : Nat) : Coalescer G K Item E :=
  { window := window, registry := fun _ => none, nextSlot := 0, calls := [], slots := [] }

/-- Modelled from the spec: steps 1 to 3 of `lookup(groupKey, itemKey)` at time
`now`.  With an open window for the group key the caller joins it with a fresh
result slot; otherwise a new window is created and registered with the caller as
its first waiter.  Returns the new state and the slot the caller blocks on. -/
def Coalescer.lookup {G K Item E : Type} [DecidableEq G] (s : Coalescer G K Item E)
    (now : Nat) (g : G) (k : K) : Coalescer G K Item E × Nat :=
  let slot := s.nextSlot
  match s.registry g with
  | some w =>
    ({ s with
        registry := Function.update s.registry g
          (some { w with waiters := w.waiters ++ [(k, slot)] }),
        nextSlot := slot + 1 }, slot)
  | none =>
    ({ s with
        registry := Function.update s.registry g
          (some { key := g, openedAt := now, waiters := [(k, slot)] }),
        nextSlot := slot + 1 }, slot)

/-- A run of lookups `(time, itemKey)` under one group key, in order. -/
def Coalescer.lookupAll {G K Item E : Type} [DecidableEq G] (s : Coalescer G K Item E)
    (g : G) : List (Nat × K) → Coalescer G K Item E
  | [] => s
  | (now, k) :: rest => Coalescer.lookupAll (s.lookup now g k).1 g rest

/-- Modelled from the spec: step 4 for one waiter.  On failure the error of the
bulk call; on success the first entry of the listing whose key equals the
waiter item key, as `(item, found=true)`, or `(nil, found=false)`. -/
def demux {K Item E : Type} [DecidableEq K] (key : Item → K)
    (r : Except E (List Item)) (k : K) : Delivery Item E :=
  match r with
  | .error e => .error e
  | .ok listing =>
    match listing.find? (fun it => key it = k) with
    | some it => .ok { item := some it, found := true }
    | none => .ok { item := none, found := false }

/-- Modelled from the spec: the opener acting at time `now` (steps 3 and 4).
Nothing happens while no window is open for `g` or its duration has not elapsed;
otherwise the window is removed from the registry, the single bulk-list call for
`g` is made (its outcome is `r`) and logged, and every waiter of the closed
window is delivered its own result. -/
def Coalescer.closeWindow {G K Item E : Type} [DecidableEq G] [DecidableEq K]
    (key : Item → K) (s : Coalescer G K Item E) (now : Nat) (g : G)
    (r : Except E (List Item)) : Coalescer G K Item E :=
  match s.registry g with
  | none => s
  | some w =>
    if now < w.openedAt + s.window then s
    else
      { s with
        registry := Function.update s.registry g none,
        calls := s.calls ++ [g],
        slots := s.slots ++ w.waiters.map (fun p => (p.2, demux key r p.1)) }

/-! ## ConditionalCacheTransport (spec section 4.1) -/

/-- Spec `CacheEntry`: `{ requestIdentity, validator, body, storedAt }`; a body
is a list of bytes. -/
structure CacheEntry where
  requestIdentity : String
  validator : String
  body : List Nat
  storedAt : Nat
deriving DecidableEq, Repr

/-- The cache map, by request identity. -/
abbrev Cache := String → Option CacheEntry

/-- A GET-style request: method, normalized URL, and the validator attached as
conditional-read precondition, if any. -/
structure Request where
  method : String
  url : String
  precondition : Option String
deriving DecidableEq, Repr

/-- The three response classes the transport distinguishes. -/
inductive StatusClass where
  | notModified
  | success
  | failure
deriving DecidableEq, Repr

/-- A response: class, server-issued validator, body. -/
structure Response where
  status : StatusClass
  validator : String
  body : List Nat
deriving DecidableEq, Repr

/-- Cache key of a request: "method + normalized URL". -/
def Request.identity (req : Request) : String := req.method ++ " " ++ req.url

/-- Modelled from the spec: the transport behind `NewEtagTransport` is not
among the sources.  One round trip at time `now` over the underlying executor
`send`: attach the stored validator if there is an entry, send; on "unchanged"
return the stored body and leave the cache alone; on success store body and new
validator; anything else passes through without touching the cache. -/
def etagRoundTrip (cache : Cache) (now : Nat) (send : Request → Response)
    (req : Request) : Cache × Response :=
  let key := req.identity
  let sent : Request :=
    match cache key with
    | some entry => { req with precondition := some entry.validator }
    | none => req
  let resp := send sent
  match resp.status with
  | .notModified =>
    match cache key with
    | some entry => (cache, { resp with body := entry.body })
    | none => (cache, resp)
  | .success =>
    (Function.update cache key
      (some { requestIdentity := key, validator := resp.validator,
              body := resp.body, storedAt := now }), resp)
  | .failure => (cache, resp)

/-! ## RateLimitTransport (spec section 4.2) -/

/-- Spec `RateState`: `{ remaining, resetAt }`. -/
structure RateState where
  remaining : Nat
  resetAt : Nat
deriving DecidableEq, Repr

/-- A request suspended on exhausted quota, with the time it waits for. -/
structure Waiting where
  id : Nat
  wakeAt : Nat
deriving DecidableEq, Repr

/-- A request handed to the underlying executor, with the time of the hand-over. -/
structure Handed where
  id : Nat
  time : Nat
deriving DecidableEq, Repr

/-- Modelled from the spec: the transport behind `NewRateLimitTransport` is not
among the sources.  State of the gate in front of the underlying executor: the
clock, the shared `RateState`, the number of the next request, the suspended
requests and the log of hand-overs. -/
structure RateLimiter where
  now : Nat
  rate : RateState
  nextId : Nat
  blocked : List Waiting
  handed : List Handed
deriving DecidableEq, Repr

/-- What can happen to the gate: a new request is issued, the clock advances by
one unit, or a response arrives carrying rate-limit metadata. -/
inductive RateEvent where
  | issue
  | tick
  | response (remaining resetAt : Nat)
deriving DecidableEq, Repr

/-- The gate at time `now` with rate state `rate` and no request seen yet. -/
def RateLimiter.init (now : Nat) (rate : RateState) : RateLimiter :=
  { now := now, rate := rate, nextId := 0, blocked := [], handed := [] }

/-- Modelled from the spec: one event at the gate.  A new request is suspended
until `resetAt` "if remaining quota is zero and resetAt is in the future", and
handed on at once otherwise; when the clock advances every suspended request
whose time has come is handed on; a response updates `RateState`
unconditionally. -/
def RateLimiter.step (s : RateLimiter) : RateEvent → RateLimiter
  | .issue =>
    if s.rate.remaining = 0 ∧ s.now < s.rate.resetAt then
      { s with nextId := s.nextId + 1,
               blocked := s.blocked ++ [{ id := s.nextId, wakeAt := s.rate.resetAt }] }
    else
      { s with nextId := s.nextId + 1,
               handed := s.handed ++ [{ id := s.nextId, time := s.now }] }
  | .tick =>
    let now := s.now + 1
    { s with now := now,
             blocked := s.blocked.filter (fun b => ¬ b.wakeAt ≤ now),
             handed := s.handed ++
               (s.blocked.filter (fun b => b.wakeAt ≤ now)).map
                 (fun b => { id := b.id, time := now }) }
  | .response remaining resetAt =>
    { s with rate := { remaining := remaining, resetAt := resetAt } }

/-- A sequence of events at the gate, in order. -/
def RateLimiter.run (s : RateLimiter) (es : List RateEvent) : RateLimiter :=
  es.foldl RateLimiter.step s

/-! ## Sample inputs -/

/-- A URL parser to instantiate `Client` with: like `url.Parse` it rejects a
string that starts with a colon ("missing protocol scheme"). -/
def sampleParse (raw : String) : Except String String :=
  match raw.data with
  | ':' :: _ => .error "missing protocol scheme"
  | _ => .ok raw

/-- A configuration with a base URL override and TLS verification disabled. -/
def sampleConfig : Config :=
  { Token := "t0", Organization := "acme", BaseURL := "https://ghe.example/api/v3/",
    Insecure := true }

/-- A configuration without base URL override. -/
def plainConfig : Config :=
  { Token := "t0", Organization := "acme", BaseURL := "", Insecure := false }

/-- A configuration whose base URL does not parse. -/
def brokenConfig : Config :=
  { Token := "t0", Organization := "acme", BaseURL := ":bad", Insecure := false }

/-- What holds of every state of the gate reached from `RateLimiter.init`:
request numbers in use are below `nextId`, and a suspended request waits for a
time that has not come yet. -/
def RateLimiter.Inv (s : RateLimiter) : Prop :=
  (∀ b ∈ s.blocked, b.id < s.nextId ∧ s.now < b.wakeAt) ∧ (∀ h ∈ s.handed, h.id < s.nextId)

/-- What holds of request `i`, suspended until `g`, in every later state: it is
still suspended and `g` has not come, or it was handed on at time `g`. -/
def RateLimiter.Tracked (i g : Nat) (f : RateLimiter) : Prop :=
  i < f.nextId
    ∧ (∀ b ∈ f.blocked, f.now < b.wakeAt)
    ∧ (∀ b ∈ f.blocked, b.id = i → b.wakeAt = g)
    ∧ (∀ h ∈ f.handed, h.id = i → h.time = g ∧ g ≤ f.now)
    ∧ ((∃ b ∈ f.blocked, b.id = i) ∨ (∃ h ∈ f.handed, h.id = i))

/-- The listing of the end-to-end scenario: items `a`, `c`, `e`, an item being
its own key. -/
def sampleListing : List String := ["a", "c", "e"]

/-- The five lookups of the end-to-end scenario, fired within 100 time units. -/
def sampleLookups : List (Nat × String) :=
  [(0, "a"), (20, "b"), (40, "c"), (60, "d"), (80, "e")]

/-- A coalescer with a window of 2000 time units and nothing open. -/
def sampleCoalescer : Coalescer String String String String :=
  Coalescer.empty String String String String 2000

/-- A cache holding one entry, for the label listing of one repository. -/
def sampleCache : Cache := fun k =>
  if k = "GET /repos/acme/site/labels" then
    some { requestIdentity := "GET /repos/acme/site/labels", validator := "v1",
           body := [1, 2, 3], storedAt := 5 }
  else none

/-- The request whose identity `sampleCache` knows. -/
def sampleRequest : Request :=
  { method := "GET", url := "/repos/acme/site/labels", precondition := none }

/-- A server that answers "not modified" to a request carrying validator `v1`
and a fresh representation otherwise. -/
def revalidatingServer (req : Request) : Response :=
  if req.precondition = some "v1" then
    { status := .notModified, validator := "v1", body := [] }
  else { status := .success, validator := "v2", body := [4, 5] }

/-- A server whose representation has changed: it always answers with a fresh
representation under validator `v2`. -/
def changedServer (_req : Request) : Response :=
  { status := .success, validator := "v2", body := [4, 5] }

/-! ## Client assembly: lemmas -/

lemma Client_eq_of_empty {U E : Type} (parse : String → Except E U) (d : U) (c : Config)
    (h : c.BaseURL = "") :
    c.Client parse d = .ok
      { name := c.Organization,
        client := some { client := c.transportClient, BaseURL := d },
        readLabel := some (batchReadLabel batchTiming .Issues),
        readCollaborator := some (batchReadCollaborator batchTiming .Repositories) } := by
  simp [Config.Client, h, githubNewClient]

lemma Client_eq_of_parsed {U E : Type} (parse : String → Except E U) (d : U) (c : Config)
    (u : U) (h : c.BaseURL ≠ "") (hu : parse c.BaseURL = .ok u) :
    c.Client parse d = .ok
      { name := c.Organization,
        client := some { client := c.transportClient, BaseURL := u },
        readLabel := some (batchReadLabel batchTiming .Issues),
        readCollaborator := some (batchReadCollaborator batchTiming .Repositories) } := by
  simp [Config.Client, h, hu, githubNewClient]

lemma Client_eq_of_rejected {U E : Type} (parse : String → Except E U) (d : U) (c : Config)
    (err : E) (h : c.BaseURL ≠ "") (he : parse c.BaseURL = .error err) :
    c.Client parse d = .error err := by
  simp [Config.Client, h, he]

/-- Every successful result of `Client` has the same shape: only the base URL
of the client varies. -/
lemma Client_ok_shape {U E : Type} (parse : String → Except E U) (d : U) (c : Config)
    (org : Organization U) (h : c.Client parse d = .ok org) :
    ∃ u, org =
      { name := c.Organization,
        client := some { client := c.transportClient, BaseURL := u },
        readLabel := some (batchReadLabel batchTiming .Issues),
        readCollaborator := some (batchReadCollaborator batchTiming .Repositories) } := by
  by_cases hb : c.BaseURL = ""
  · rw [Client_eq_of_empty parse d c hb] at h
    exact ⟨d, (Except.ok.inj h).symm⟩
  · cases hp : parse c.BaseURL with
    | error err =>
      rw [Client_eq_of_rejected parse d c err hb hp] at h
      cases h
    | ok u =>
      rw [Client_eq_of_parsed parse d c u hb hp] at h
      exact ⟨u, (Except.ok.inj h).symm⟩

/-! ## Client assembly: claims -/

/-- C5: for every `Config` the transport chain of the assembled HTTP client
is, from the outside in, logging, rate-limit, ETag, oauth2; the rate-limit
transport wraps the ETag transport directly, each of the two occurs exactly
once, and a client returned by `Client` is built on exactly this HTTP client. -/
theorem Client_transport_chain {U E : Type} (parse : String → Except E U) (d : U)
    (c : Config) :
    c.transportClient.Transport =
        .logging "Github" (NewRateLimitTransport (NewEtagTransport
          (oauth2NewClient c.oauthContext (StaticTokenSource { AccessToken := c.Token })).Transport))
      ∧ c.transportClient.Transport.layers = ["logging", "rateLimit", "etag", "oauth2"]
      ∧ c.transportClient.Transport.etagCount = 1
      ∧ c.transportClient.Transport.rateLimitCount = 1
      ∧ ∀ org, c.Client parse d = .ok org →
          org.client.map (fun gc => gc.client) = some c.transportClient := by
  refine ⟨rfl, rfl, rfl, rfl, ?_⟩
  intro org h
  obtain ⟨u, rfl⟩ := Client_ok_shape parse d c org h
  rfl

/-- Instance of C5 at `sampleConfig`. -/
theorem Client_transport_chain_witness :
    sampleConfig.transportClient.Transport.layers = ["logging", "rateLimit", "etag", "oauth2"]
      ∧ ∃ org, sampleConfig.Client sampleParse "https://api.github.com/" = .ok org ∧
          org.client.map (fun gc => gc.client) = some sampleConfig.transportClient :=
  ⟨(Client_transport_chain sampleParse "https://api.github.com/" sampleConfig).2.1,
    _, Client_eq_of_parsed sampleParse "https://api.github.com/" sampleConfig
      "https://ghe.example/api/v3/" (by decide) rfl,
    (Client_transport_chain sampleParse "https://api.github.com/" sampleConfig).2.2.2.2 _
      (Client_eq_of_parsed sampleParse "https://api.github.com/" sampleConfig
        "https://ghe.example/api/v3/" (by decide) rfl)⟩

/-- C7: whatever the `Config`, both batched lookups of a returned
`Organization` are built with the same window, the constant 2 seconds. -/
theorem Client_batchTiming_constant {U E : Type} (parse : String → Except E U) (d : U)
    (c : Config) (org : Organization U) (h : c.Client parse d = .ok org) :
    org.readLabel = some (batchReadLabel (2 * timeSecond) .Issues)
      ∧ org.readCollaborator = some (batchReadCollaborator (2 * timeSecond) .Repositories)
      ∧ org.readLabel.map (fun b => b.timing) = some 2000000000
      ∧ org.readCollaborator.map (fun b => b.timing) = some 2000000000 := by
  obtain ⟨u, rfl⟩ := Client_ok_shape parse d c org h
  exact ⟨rfl, rfl, rfl, rfl⟩

/-- Instance of C7 at `sampleConfig`. -/
theorem Client_batchTiming_constant_witness :
    ∃ org, sampleConfig.Client sampleParse "https://api.github.com/" = .ok org ∧
      org.readLabel.map (fun b => b.timing) = some 2000000000 ∧
      org.readCollaborator.map (fun b => b.timing) = some 2000000000 :=
  ⟨_, Client_eq_of_parsed sampleParse "https://api.github.com/" sampleConfig
      "https://ghe.example/api/v3/" (by decide) rfl,
    (Client_batchTiming_constant sampleParse "https://api.github.com/" sampleConfig _
      (Client_eq_of_parsed sampleParse "https://api.github.com/" sampleConfig
        "https://ghe.example/api/v3/" (by decide) rfl)).2.2⟩

/-- C8: with a non-empty `BaseURL` that parses as `u`, the returned client has
`BaseURL` `u`; with an empty `BaseURL` the returned client keeps the base URL
that `github.NewClient` installed. -/
theorem Client_baseURL_override {U E : Type} (parse : String → Except E U) (d : U)
    (c : Config) :
    (∀ u, c.BaseURL ≠ "" → parse c.BaseURL = .ok u →
        ∃ org gc, c.Client parse d = .ok org ∧ org.client = some gc ∧ gc.BaseURL = u)
      ∧ (c.BaseURL = "" →
        ∃ org gc, c.Client parse d = .ok org ∧ org.client = some gc ∧ gc.BaseURL = d) := by
  constructor
  · intro u hb hu
    exact ⟨_, _, Client_eq_of_parsed parse d c u hb hu, rfl, rfl⟩
  · intro hb
    exact ⟨_, _, Client_eq_of_empty parse d c hb, rfl, rfl⟩

/-- Instances of C8 at `sampleConfig` (override) and `plainConfig` (default). -/
theorem Client_baseURL_override_witness :
    (∃ org gc, sampleConfig.Client sampleParse "https://api.github.com/" = .ok org ∧
        org.client = some gc ∧ gc.BaseURL = "https://ghe.example/api/v3/")
      ∧ (∃ org gc, plainConfig.Client sampleParse "https://api.github.com/" = .ok org ∧
        org.client = some gc ∧ gc.BaseURL = "https://api.github.com/") :=
  ⟨(Client_baseURL_override sampleParse "https://api.github.com/" sampleConfig).1
      "https://ghe.example/api/v3/" (by decide) rfl,
    (Client_baseURL_override sampleParse "https://api.github.com/" plainConfig).2 rfl⟩

/-- C9: the context handed to `oauth2.NewClient` carries the client built by
`insecureHttpClient`, whose TLS configuration has `InsecureSkipVerify = true`,
if and only if `Insecure` is true; when `Insecure` is false the context carries
no HTTP client at all. -/
theorem Client_insecure_toggle (c : Config) :
    (∃ ts, c.transportClient.Transport =
        .logging "Github" (.rateLimit (.etag (oauth2NewClient c.oauthContext ts).Transport)))
      ∧ (c.oauthContext.httpClient = some insecureHttpClient ↔ c.Insecure = true)
      ∧ (c.Insecure = false → c.oauthContext.httpClient = none)
      ∧ insecureHttpClient.TLSClientConfig = some { InsecureSkipVerify := true } := by
  refine ⟨⟨_, rfl⟩, ?_, ?_, rfl⟩
  · cases hi : c.Insecure <;>
      simp [Config.oauthContext, hi, Context.Background, Context.WithHTTPClient]
  · intro hi
    simp [Config.oauthContext, hi, Context.Background]

/-- Instances of C9 at `sampleConfig` (insecure) and `plainConfig`. -/
theorem Client_insecure_toggle_witness :
    sampleConfig.oauthContext.httpClient = some insecureHttpClient
      ∧ plainConfig.oauthContext.httpClient = none :=
  ⟨(Client_insecure_toggle sampleConfig).2.1.mpr rfl,
    (Client_insecure_toggle plainConfig).2.2.1 rfl⟩

/-- C10: `Client` returns an error exactly when `BaseURL` is non-empty and
`url.Parse` rejects it, and the error is then the parse error itself; in every
other case it returns an `Organization` named `Config.Organization` whose
client, `readLabel` and `readCollaborator` are all set. -/
theorem Client_error_iff {U E : Type} (parse : String → Except E U) (d : U) (c : Config) :
    (∀ err, c.Client parse d = .error err ↔
        (c.BaseURL ≠ "" ∧ parse c.BaseURL = .error err))
      ∧ (¬ (c.BaseURL ≠ "" ∧ ∃ err, parse c.BaseURL = .error err) →
        ∃ org, c.Client parse d = .ok org ∧ org.name = c.Organization ∧
          org.client.isSome = true ∧ org.readLabel.isSome = true ∧
          org.readCollaborator.isSome = true) := by
  by_cases hb : c.BaseURL = ""
  · refine ⟨fun err => ?_, fun _ => ⟨_, Client_eq_of_empty parse d c hb, rfl, rfl, rfl, rfl⟩⟩
    rw [Client_eq_of_empty parse d c hb]
    simp [hb]
  · cases hp : parse c.BaseURL with
    | error e =>
      refine ⟨fun err => ?_, fun hn => absurd ⟨hb, e, rfl⟩ hn⟩
      rw [Client_eq_of_rejected parse d c e hb hp]
      simp [hb]
    | ok u =>
      refine ⟨fun err => ?_, fun _ => ⟨_, Client_eq_of_parsed parse d c u hb hp, rfl, rfl, rfl, rfl⟩⟩
      rw [Client_eq_of_parsed parse d c u hb hp]
      simp

/-- Instances of C10 at `brokenConfig` (error) and `plainConfig` (success). -/
theorem Client_error_iff_witness :
    brokenConfig.Client sampleParse "https://api.github.com/" = .error "missing protocol scheme"
      ∧ ∃ org, plainConfig.Client sampleParse "https://api.github.com/" = .ok org ∧
          org.name = "acme" ∧ org.client.isSome = true ∧ org.readLabel.isSome = true ∧
          org.readCollaborator.isSome = true :=
  ⟨((Client_error_iff sampleParse "https://api.github.com/" brokenConfig).1
      "missing protocol scheme").mpr ⟨by decide, rfl⟩,
    (Client_error_iff sampleParse "https://api.github.com/" plainConfig).2
      (fun h => h.1 rfl)⟩

/-! ## ConditionalCacheTransport -/

/-- C3: when the identity of a request has a stored entry and the server
answers "not modified", the transport returns the stored body and the cache is
left as it was; when the server answers with a success, the entry for that
identity is overwritten with the validator and body of the fresh response, which
is returned as is, and no other identity is touched. -/
theorem etagRoundTrip_cache (cache : Cache) (now : Nat) (send : Request → Response)
    (req : Request) (entry : CacheEntry) (h : cache req.identity = some entry) :
    ((send { req with precondition := some entry.validator }).status = .notModified →
        (etagRoundTrip cache now send req).2.body = entry.body
          ∧ (etagRoundTrip cache now send req).1 = cache
          ∧ (etagRoundTrip cache now send req).1 req.identity = some entry)
      ∧ ((send { req with precondition := some entry.validator }).status = .success →
        (etagRoundTrip cache now send req).2 =
            send { req with precondition := some entry.validator }
          ∧ (etagRoundTrip cache now send req).1 req.identity =
            some { requestIdentity := req.identity,
                   validator := (send { req with precondition := some entry.validator }).validator,
                   body := (send { req with precondition := some entry.validator }).body,
                   storedAt := now }
          ∧ ∀ other, other ≠ req.identity →
              (etagRoundTrip cache now send req).1 other = cache other) := by
  constructor
  · intro hs
    simp [etagRoundTrip, h, hs]
  · intro hs
    refine ⟨?_, ?_, ?_⟩
    · simp [etagRoundTrip, h, hs]
    · simp [etagRoundTrip, h, hs]
    · intro other ho
      simp [etagRoundTrip, h, hs, Function.update, ho]

/-! ## BatchCoalescer -/

lemma lookup_fields {G K Item E : Type} [DecidableEq G] (s : Coalescer G K Item E)
    (now : Nat) (g : G) (k : K) :
    (s.lookup now g k).1.window = s.window ∧ (s.lookup now g k).1.calls = s.calls
      ∧ (s.lookup now g k).1.slots = s.slots
      ∧ (s.lookup now g k).1.nextSlot = s.nextSlot + 1 := by
  unfold Coalescer.lookup
  cases s.registry g <;> exact ⟨rfl, rfl, rfl, rfl⟩

lemma lookup_registry_open {G K Item E : Type} [DecidableEq G] (s : Coalescer G K Item E)
    (now : Nat) (g : G) (k : K) (w : BatchWindow G K) (h : s.registry g = some w) :
    (s.lookup now g k).1.registry g =
      some { w with waiters := w.waiters ++ [(k, s.nextSlot)] } := by
  simp [Coalescer.lookup, h]

lemma lookup_registry_fresh {G K Item E : Type} [DecidableEq G] (s : Coalescer G K Item E)
    (now : Nat) (g : G) (k : K) (h : s.registry g = none) :
    (s.lookup now g k).1.registry g =
      some { key := g, openedAt := now, waiters := [(k, s.nextSlot)] } := by
  simp [Coalescer.lookup, h]

/-- Lookups arriving while a window is open all join that window, in order, each
with its own fresh slot, and touch nothing else. -/
lemma lookupAll_open {G K Item E : Type} [DecidableEq G] (g : G) (ks : List (Nat × K)) :
    ∀ (s : Coalescer G K Item E) (w : BatchWindow G K), s.registry g = some w →
      (s.lookupAll g ks).registry g =
          some { w with waiters :=
            w.waiters ++ (ks.enumFrom s.nextSlot).map (fun p => (p.2.2, p.1)) }
        ∧ (s.lookupAll g ks).window = s.window
        ∧ (s.lookupAll g ks).calls = s.calls
        ∧ (s.lookupAll g ks).slots = s.slots := by
  induction ks with
  | nil =>
    intro s w h
    simp [Coalescer.lookupAll, h]
  | cons tk rest ih =>
    intro s w h
    obtain ⟨t, k⟩ := tk
    obtain ⟨hw, hc, hs, hn⟩ := lookup_fields s t g k
    have h1 := lookup_registry_open s t g k w h
    obtain ⟨r1, r2, r3, r4⟩ := ih (s.lookup t g k).1 _ h1
    refine ⟨?_, ?_, ?_, ?_⟩
    · simp only [Coalescer.lookupAll]
      rw [r1, hn]
      simp [List.enumFrom]
    · simp only [Coalescer.lookupAll]
      rw [r2, hw]
    · simp only [Coalescer.lookupAll]
      rw [r3, hc]
    · simp only [Coalescer.lookupAll]
      rw [r4, hs]

/-- A first lookup with no window open creates one, and the lookups after it
join that window. -/
lemma lookupAll_fresh {G K Item E : Type} [DecidableEq G] (g : G) (t0 : Nat) (k0 : K)
    (rest : List (Nat × K)) (s : Coalescer G K Item E) (h : s.registry g = none) :
    (s.lookupAll g ((t0, k0) :: rest)).registry g =
        some { key := g, openedAt := t0,
               waiters := (((t0, k0) :: rest).enumFrom s.nextSlot).map (fun p => (p.2.2, p.1)) }
      ∧ (s.lookupAll g ((t0, k0) :: rest)).window = s.window
      ∧ (s.lookupAll g ((t0, k0) :: rest)).calls = s.calls
      ∧ (s.lookupAll g ((t0, k0) :: rest)).slots = s.slots := by
  obtain ⟨hw, hc, hs, hn⟩ := lookup_fields s t0 g k0
  have h1 := lookup_registry_fresh s t0 g k0 h
  obtain ⟨r1, r2, r3, r4⟩ := lookupAll_open g rest (s.lookup t0 g k0).1 _ h1
  refine ⟨?_, ?_, ?_, ?_⟩
  · simp only [Coalescer.lookupAll]
    rw [r1, hn]
    simp [List.enumFrom]
  · simp only [Coalescer.lookupAll]
    rw [r2, hw]
  · simp only [Coalescer.lookupAll]
    rw [r3, hc]
  · simp only [Coalescer.lookupAll]
    rw [r4, hs]

lemma closeWindow_elapsed {G K Item E : Type} [DecidableEq G] [DecidableEq K]
    (key : Item → K) (s : Coalescer G K Item E) (now : Nat) (g : G)
    (r : Except E (List Item)) (w : BatchWindow G K) (h : s.registry g = some w)
    (ht : w.openedAt + s.window ≤ now) :
    (s.closeWindow key now g r).registry g = none
      ∧ (s.closeWindow key now g r).calls = s.calls ++ [g]
      ∧ (s.closeWindow key now g r).slots =
          s.slots ++ w.waiters.map (fun p => (p.2, demux key r p.1)) := by
  simp [Coalescer.closeWindow, h, Nat.not_lt.mpr ht]

/-- On a successful listing a waiter is delivered the first entry carrying its
item key, or "not found" when the listing has no such entry. -/
lemma demux_ok {K Item E : Type} [DecidableEq K] (key : Item → K) (listing : List Item)
    (k : K) :
    (∃ it, it ∈ listing ∧ key it = k ∧
        demux key (.ok listing : Except E (List Item)) k = .ok { item := some it, found := true })
      ∨ ((∀ it ∈ listing, key it ≠ k) ∧
        demux key (.ok listing : Except E (List Item)) k = .ok { item := none, found := false }) := by
  cases hf : listing.find? (fun it => key it = k) with
  | some it =>
    left
    refine ⟨it, List.mem_of_find?_eq_some hf, ?_, ?_⟩
    · simpa using List.find?_some hf
    · simp [demux, hf]
  | none =>
    right
    refine ⟨?_, ?_⟩
    · intro it hit
      simpa using List.find?_eq_none.mp hf it hit
    · simp [demux, hf]

/-- C1: lookups `(G, itemKey_i)`, the first of which finds no window open for
`G`, all attach to one window; once its duration has elapsed and the bulk-list
call returns the listing `L`, exactly one call for `G` has been added to the
log, the window is gone from the registry, and the i-th lookup is delivered, in
its own slot, the entry of `L` with its item key as `(item, found=true)`, or
`(nil, found=false)` without error when `L` has no such entry. -/
theorem lookup_batch_success {G K Item E : Type} [DecidableEq G] [DecidableEq K]
    (key : Item → K) (s : Coalescer G K Item E) (g : G) (t0 : Nat) (k0 : K)
    (rest : List (Nat × K)) (now : Nat) (listing : List Item)
    (hfresh : s.registry g = none) (ht : t0 + s.window ≤ now) :
    ((s.lookupAll g ((t0, k0) :: rest)).closeWindow key now g (.ok listing)).calls
        = s.calls ++ [g]
      ∧ ((s.lookupAll g ((t0, k0) :: rest)).closeWindow key now g (.ok listing)).registry g
        = none
      ∧ ((s.lookupAll g ((t0, k0) :: rest)).closeWindow key now g (.ok listing)).slots
        = s.slots ++ (((t0, k0) :: rest).enumFrom s.nextSlot).map
            (fun p => (p.1, demux key (.ok listing) p.2.2))
      ∧ ∀ k, (∃ it, it ∈ listing ∧ key it = k ∧
              demux key (.ok listing : Except E (List Item)) k
                = .ok { item := some it, found := true })
          ∨ ((∀ it ∈ listing, key it ≠ k) ∧
              demux key (.ok listing : Except E (List Item)) k
                = .ok { item := none, found := false }) := by
  obtain ⟨r1, r2, r3, r4⟩ := lookupAll_fresh g t0 k0 rest s hfresh
  obtain ⟨c1, c2, c3⟩ := closeWindow_elapsed key (s.lookupAll g ((t0, k0) :: rest)) now g
    (.ok listing) _ r1 (by rw [r2]; exact ht)
  refine ⟨by rw [c2, r3], c1, ?_, fun k => demux_ok key listing k⟩
  rw [c3, r4, List.map_map]
  rfl

/-- C2: when the single bulk-list call of a window fails with error `e`, every
waiter of that window is delivered exactly `e`, nobody is delivered a lookup
result, and one call has been added to the log. -/
theorem lookup_batch_failure {G K Item E : Type} [DecidableEq G] [DecidableEq K]
    (key : Item → K) (s : Coalescer G K Item E) (g : G) (t0 : Nat) (k0 : K)
    (rest : List (Nat × K)) (now : Nat) (e : E)
    (hfresh : s.registry g = none) (ht : t0 + s.window ≤ now) :
    ((s.lookupAll g ((t0, k0) :: rest)).closeWindow key now g (.error e)).calls
        = s.calls ++ [g]
      ∧ ((s.lookupAll g ((t0, k0) :: rest)).closeWindow key now g (.error e)).slots
        = s.slots ++ (((t0, k0) :: rest).enumFrom s.nextSlot).map (fun p => (p.1, .error e))
      ∧ ∀ d ∈ ((s.lookupAll g ((t0, k0) :: rest)).closeWindow key now g (.error e)).slots.drop
            s.slots.length, d.2 = .error e ∧ ∀ res, d.2 ≠ .ok res := by
  obtain ⟨r1, r2, r3, r4⟩ := lookupAll_fresh g t0 k0 rest s hfresh
  obtain ⟨_, c2, c3⟩ := closeWindow_elapsed key (s.lookupAll g ((t0, k0) :: rest)) now g
    (.error e) _ r1 (by rw [r2]; exact ht)
  have hs : ((s.lookupAll g ((t0, k0) :: rest)).closeWindow key now g (.error e)).slots
      = s.slots ++ (((t0, k0) :: rest).enumFrom s.nextSlot).map (fun p => (p.1, .error e)) := by
    rw [c3, r4, List.map_map]
    rfl
  refine ⟨by rw [c2, r3], hs, ?_⟩
  intro d hd
  rw [hs, List.drop_left] at hd
  obtain ⟨p, _, rfl⟩ := List.mem_map.mp hd
  exact ⟨rfl, fun res h => by cases h⟩

/-! ## RateLimitTransport -/

lemma Inv_init (now : Nat) (rate : RateState) : (RateLimiter.init now rate).Inv := by
  simp [RateLimiter.Inv, RateLimiter.init]

lemma Inv_step (s : RateLimiter) (e : RateEvent) (h : s.Inv) : (s.step e).Inv := by
  obtain ⟨hb, hh⟩ := h
  cases e with
  | issue =>
    by_cases hx : s.rate.remaining = 0 ∧ s.now < s.rate.resetAt
    · simp only [RateLimiter.step, hx, and_self, if_true, RateLimiter.Inv]
      refine ⟨?_, ?_⟩
      · intro b hmem
        rcases List.mem_append.mp hmem with h1 | h1
        · exact ⟨Nat.lt_succ_of_lt (hb b h1).1, (hb b h1).2⟩
        · rw [List.mem_singleton] at h1
          subst h1
          exact ⟨Nat.lt_succ_self _, hx.2⟩
      · intro x hmem
        exact Nat.lt_succ_of_lt (hh x hmem)
    · simp only [RateLimiter.step, hx, if_false, RateLimiter.Inv]
      refine ⟨?_, ?_⟩
      · intro b hmem
        exact ⟨Nat.lt_succ_of_lt (hb b hmem).1, (hb b hmem).2⟩
      · intro x hmem
        rcases List.mem_append.mp hmem with h1 | h1
        · exact Nat.lt_succ_of_lt (hh x h1)
        · rw [List.mem_singleton] at h1
          subst h1
          exact Nat.lt_succ_self _
  | tick =>
    simp only [RateLimiter.step, RateLimiter.Inv]
    refine ⟨?_, ?_⟩
    · intro b hmem
      rw [List.mem_filter] at hmem
      have h2 : ¬ b.wakeAt ≤ s.now + 1 := by simpa using hmem.2
      exact ⟨(hb b hmem.1).1, Nat.lt_of_not_le h2⟩
    · intro x hmem
      rcases List.mem_append.mp hmem with h1 | h1
      · exact hh x h1
      · obtain ⟨b, hbm, rfl⟩ := List.mem_map.mp h1
        exact (hb b (List.mem_filter.mp hbm).1).1
  | response r t =>
    exact ⟨hb, hh⟩

lemma Inv_run (es : List RateEvent) : ∀ s : RateLimiter, s.Inv → (s.run es).Inv := by
  induction es with
  | nil => intro s h; exact h
  | cons e rest ih =>
    intro s h
    exact ih (s.step e) (Inv_step s e h)

/-- A request issued while the quota is exhausted is suspended until `resetAt`. -/
lemma Tracked_issue (s : RateLimiter) (h : s.Inv) (h0 : s.rate.remaining = 0)
    (hlt : s.now < s.rate.resetAt) :
    RateLimiter.Tracked s.nextId s.rate.resetAt (s.step .issue) := by
  obtain ⟨hb, hh⟩ := h
  have hx : s.rate.remaining = 0 ∧ s.now < s.rate.resetAt := ⟨h0, hlt⟩
  simp only [RateLimiter.step, hx, and_self, if_true, RateLimiter.Tracked]
  refine ⟨Nat.lt_succ_self _, ?_, ?_, ?_, ?_⟩
  · intro b hmem
    rcases List.mem_append.mp hmem with h1 | h1
    · exact (hb b h1).2
    · rw [List.mem_singleton] at h1
      subst h1
      exact hlt
  · intro b hmem hid
    rcases List.mem_append.mp hmem with h1 | h1
    · exact absurd hid (Nat.ne_of_lt (hb b h1).1)
    · rw [List.mem_singleton] at h1
      subst h1
      rfl
  · intro x hmem hid
    exact absurd hid (Nat.ne_of_lt (hh x hmem))
  · left
    exact ⟨_, List.mem_append_right _ (List.mem_singleton_self _), rfl⟩

lemma Tracked_step (i g : Nat) (f : RateLimiter) (e : RateEvent)
    (h : RateLimiter.Tracked i g f) : RateLimiter.Tracked i g (f.step e) := by
  obtain ⟨hi, hw, hg, hh, hex⟩ := h
  cases e with
  | issue =>
    by_cases hx : f.rate.remaining = 0 ∧ f.now < f.rate.resetAt
    · simp only [RateLimiter.step, hx, and_self, if_true, RateLimiter.Tracked]
      refine ⟨Nat.lt_succ_of_lt hi, ?_, ?_, hh, ?_⟩
      · intro b hmem
        rcases List.mem_append.mp hmem with h1 | h1
        · exact hw b h1
        · rw [List.mem_singleton] at h1
          subst h1
          exact hx.2
      · intro b hmem hid
        rcases List.mem_append.mp hmem with h1 | h1
        · exact hg b h1 hid
        · rw [List.mem_singleton] at h1
          subst h1
          exact absurd hid.symm (Nat.ne_of_lt hi)
      · rcases hex with ⟨b, hbm, hid⟩ | hr
        · exact Or.inl ⟨b, List.mem_append_left _ hbm, hid⟩
        · exact Or.inr hr
    · simp only [RateLimiter.step, hx, if_false, RateLimiter.Tracked]
      refine ⟨Nat.lt_succ_of_lt hi, hw, hg, ?_, ?_⟩
      · intro x hmem hid
        rcases List.mem_append.mp hmem with h1 | h1
        · exact hh x h1 hid
        · rw [List.mem_singleton] at h1
          subst h1
          exact absurd hid.symm (Nat.ne_of_lt hi)
      · rcases hex with hl | ⟨x, hxm, hid⟩
        · exact Or.inl hl
        · exact Or.inr ⟨x, List.mem_append_left _ hxm, hid⟩
  | tick =>
    simp only [RateLimiter.step, RateLimiter.Tracked]
    refine ⟨hi, ?_, ?_, ?_, ?_⟩
    · intro b hmem
      rw [List.mem_filter] at hmem
      have h2 : ¬ b.wakeAt ≤ f.now + 1 := by simpa using hmem.2
      exact Nat.lt_of_not_le h2
    · intro b hmem hid
      exact hg b (List.mem_filter.mp hmem).1 hid
    · intro x hmem hid
      rcases List.mem_append.mp hmem with h1 | h1
      · exact ⟨(hh x h1 hid).1, Nat.le_succ_of_le (hh x h1 hid).2⟩
      · obtain ⟨b, hbm, rfl⟩ := List.mem_map.mp h1
        rw [List.mem_filter] at hbm
        have h2 : b.wakeAt ≤ f.now + 1 := by simpa using hbm.2
        have h3 : f.now < b.wakeAt := hw b hbm.1
        have h4 : b.wakeAt = g := hg b hbm.1 hid
        constructor
        · show f.now + 1 = g
          omega
        · omega
    · rcases hex with ⟨b, hbm, hid⟩ | ⟨x, hxm, hid⟩
      · by_cases hr : b.wakeAt ≤ f.now + 1
        · right
          refine ⟨{ id := b.id, time := f.now + 1 }, List.mem_append_right _ ?_, hid⟩
          exact List.mem_map.mpr ⟨b, List.mem_filter.mpr ⟨hbm, by simpa using hr⟩, rfl⟩
        · left
          exact ⟨b, List.mem_filter.mpr ⟨hbm, by simpa using hr⟩, hid⟩
      · exact Or.inr ⟨x, List.mem_append_left _ hxm, hid⟩
  | response r t =>
    exact ⟨hi, hw, hg, hh, hex⟩

lemma Tracked_run (i g : Nat) (es : List RateEvent) :
    ∀ f : RateLimiter, RateLimiter.Tracked i g f → RateLimiter.Tracked i g (f.run es) := by
  induction es with
  | nil => intro f h; exact h
  | cons e rest ih =>
    intro f h
    exact ih (f.step e) (Tracked_step i g f e h)

/-- C4: in every state of the gate, reached by any run of events, in which
`remaining` is zero and `resetAt` lies ahead, a request issued now is, after any
further run of events, never handed to the underlying executor before `resetAt`:
while the clock is before `resetAt` it is still suspended, and once the clock
has reached `resetAt` it has been handed on, at time `resetAt`. -/
theorem rateLimit_gate (t0 : Nat) (rate0 : RateState) (before after : List RateEvent)
    (h0 : ((RateLimiter.init t0 rate0).run before).rate.remaining = 0)
    (hlt : ((RateLimiter.init t0 rate0).run before).now
      < ((RateLimiter.init t0 rate0).run before).rate.resetAt) :
    (∀ h ∈ ((((RateLimiter.init t0 rate0).run before).step .issue).run after).handed,
        h.id = ((RateLimiter.init t0 rate0).run before).nextId →
          ((RateLimiter.init t0 rate0).run before).rate.resetAt ≤ h.time)
      ∧ (((((RateLimiter.init t0 rate0).run before).step .issue).run after).now
            < ((RateLimiter.init t0 rate0).run before).rate.resetAt →
          (∃ b ∈ ((((RateLimiter.init t0 rate0).run before).step .issue).run after).blocked,
            b.id = ((RateLimiter.init t0 rate0).run before).nextId) ∧
          ∀ h ∈ ((((RateLimiter.init t0 rate0).run before).step .issue).run after).handed,
            h.id ≠ ((RateLimiter.init t0 rate0).run before).nextId)
      ∧ (((RateLimiter.init t0 rate0).run before).rate.resetAt
            ≤ ((((RateLimiter.init t0 rate0).run before).step .issue).run after).now →
          (∃ h ∈ ((((RateLimiter.init t0 rate0).run before).step .issue).run after).handed,
            h.id = ((RateLimiter.init t0 rate0).run before).nextId ∧
            h.time = ((RateLimiter.init t0 rate0).run before).rate.resetAt) ∧
          ∀ b ∈ ((((RateLimiter.init t0 rate0).run before).step .issue).run after).blocked,
            b.id ≠ ((RateLimiter.init t0 rate0).run before).nextId) := by
  have hinv := Inv_run before _ (Inv_init t0 rate0)
  have htr := Tracked_run _ _ after _
    (Tracked_issue ((RateLimiter.init t0 rate0).run before) hinv h0 hlt)
  obtain ⟨_, hw, hg, hh, hex⟩ := htr
  refine ⟨?_, ?_, ?_⟩
  · intro h hm hid
    exact Nat.le_of_eq (hh h hm hid).1.symm
  · intro hnow
    have hno : ∀ h ∈ ((((RateLimiter.init t0 rate0).run before).step .issue).run after).handed,
        h.id ≠ ((RateLimiter.init t0 rate0).run before).nextId := by
      intro h hm hid
      have := (hh h hm hid).2
      omega
    refine ⟨?_, hno⟩
    rcases hex with hl | ⟨x, hxm, hid⟩
    · exact hl
    · exact absurd hid (hno x hxm)
  · intro hnow
    have hno : ∀ b ∈ ((((RateLimiter.init t0 rate0).run before).step .issue).run after).blocked,
        b.id ≠ ((RateLimiter.init t0 rate0).run before).nextId := by
      intro b hm hid
      have h1 := hw b hm
      have h2 := hg b hm hid
      omega
    refine ⟨?_, hno⟩
    rcases hex with ⟨b, hbm, hid⟩ | ⟨x, hxm, hid⟩
    · exact absurd hid (hno b hbm)
    · exact ⟨x, hxm, hid, (hh x hxm hid).1⟩

/-! ## Instances -/

/-- Instance of C1, the end-to-end scenario: item keys a, b, c, d, e under
group G, listing a, c, e: one call recorded; a, c, e found, b and d not found
with no error. -/
theorem lookup_batch_success_witness :
    ((sampleCoalescer.lookupAll "G" sampleLookups).closeWindow id 2000 "G"
        (.ok sampleListing)).calls = ["G"]
      ∧ ((sampleCoalescer.lookupAll "G" sampleLookups).closeWindow id 2000 "G"
        (.ok sampleListing)).slots =
          [(0, .ok { item := some "a", found := true }),
           (1, .ok { item := none, found := false }),
           (2, .ok { item := some "c", found := true }),
           (3, .ok { item := none, found := false }),
           (4, .ok { item := some "e", found := true })] :=
  ⟨(lookup_batch_success id sampleCoalescer "G" 0 "a"
      [(20, "b"), (40, "c"), (60, "d"), (80, "e")] 2000 sampleListing rfl (by decide)).1,
    (lookup_batch_success id sampleCoalescer "G" 0 "a"
      [(20, "b"), (40, "c"), (60, "d"), (80, "e")] 2000 sampleListing rfl
      (by decide)).2.2.1.trans rfl⟩

/-- Instance of C2: the same five lookups, the bulk call failing with
`boom`: all five slots hold `boom`, one call recorded. -/
theorem lookup_batch_failure_witness :
    ((sampleCoalescer.lookupAll "G" sampleLookups).closeWindow id 2000 "G"
        (.error "boom")).calls = ["G"]
      ∧ ((sampleCoalescer.lookupAll "G" sampleLookups).closeWindow id 2000 "G"
        (.error "boom")).slots =
          [(0, .error "boom"), (1, .error "boom"), (2, .error "boom"), (3, .error "boom"),
           (4, .error "boom")] :=
  ⟨(lookup_batch_failure id sampleCoalescer "G" 0 "a"
      [(20, "b"), (40, "c"), (60, "d"), (80, "e")] 2000 "boom" rfl (by decide)).1,
    (lookup_batch_failure id sampleCoalescer "G" 0 "a"
      [(20, "b"), (40, "c"), (60, "d"), (80, "e")] 2000 "boom" rfl (by decide)).2.1⟩

/-- Instance of C3: against `sampleCache`, a "not modified" answer returns the
stored body 1, 2, 3 and keeps the cache; a changed answer stores `v2` with body
4, 5 at the time of the round trip. -/
theorem etagRoundTrip_cache_witness :
    ((etagRoundTrip sampleCache 9 revalidatingServer sampleRequest).2.body = [1, 2, 3]
        ∧ (etagRoundTrip sampleCache 9 revalidatingServer sampleRequest).1 = sampleCache)
      ∧ (etagRoundTrip sampleCache 9 changedServer sampleRequest).1 sampleRequest.identity =
          some { requestIdentity := "GET /repos/acme/site/labels", validator := "v2",
                 body := [4, 5], storedAt := 9 } :=
  ⟨⟨((etagRoundTrip_cache sampleCache 9 revalidatingServer sampleRequest
        { requestIdentity := "GET /repos/acme/site/labels", validator := "v1",
          body := [1, 2, 3], storedAt := 5 } (by decide)).1 (by decide)).1,
     ((etagRoundTrip_cache sampleCache 9 revalidatingServer sampleRequest
        { requestIdentity := "GET /repos/acme/site/labels", validator := "v1",
          body := [1, 2, 3], storedAt := 5 } (by decide)).1 (by decide)).2.1⟩,
    ((etagRoundTrip_cache sampleCache 9 changedServer sampleRequest
        { requestIdentity := "GET /repos/acme/site/labels", validator := "v1",
          body := [1, 2, 3], storedAt := 5 } (by decide)).2 (by decide)).2.1⟩

/-- Instance of C4: quota exhausted at time 0 until time 3; a first request is
already suspended, a second one is issued, and after three ticks the second one
has been handed on at time 3, not before. -/
theorem rateLimit_gate_witness :
    (∀ h ∈ ((((RateLimiter.init 0 { remaining := 0, resetAt := 3 }).run [.issue]).step
          .issue).run [.tick, .tick, .tick]).handed, h.id = 1 → 3 ≤ h.time)
      ∧ ∃ h ∈ ((((RateLimiter.init 0 { remaining := 0, resetAt := 3 }).run [.issue]).step
          .issue).run [.tick, .tick, .tick]).handed, h.id = 1 ∧ h.time = 3 :=
  ⟨(rateLimit_gate 0 { remaining := 0, resetAt := 3 } [.issue] [.tick, .tick, .tick]
      (by decide) (by decide)).1,
    ((rateLimit_gate 0 { remaining := 0, resetAt := 3 } [.issue] [.tick, .tick, .tick]
      (by decide) (by decide)).2.2 (by decide)).1⟩

end Github
